import Mathlib

/-!
Shallow embedding of the WebArcade CLI plugin builder (`src/src/main.rs`):
the source fingerprint cache (`calculate_plugin_hash`, `plugin_needs_rebuild`,
`BuildCache`), the route and handler extractors (`extract_routes`,
`extract_handlers`), the semantics of the generated FFI shim wrapper
(`create_lib_rs`), the config registry update (`update_config_for_plugin`),
and the orchestration in `build_plugin_internal` / `build_all_plugins`.

Filesystem and process effects are made explicit: fallible I/O steps become
`Except`-valued inputs or success flags, directories become lists of files,
and external library calls (UTF-8 decoding, JSON parsing, base64, SHA-256)
are modelled as parameters or as pure functions of their input, since they
are not code of this repository.
-/

/-- Boolean test that the list `pre` is an initial segment of `l`,
comparing characters with `==`. -/
def hasPrefixSeq : List Char → List Char → Bool
  | _, [] => true
  | [], _ :: _ => false
  | a :: as, b :: bs => a == b && hasPrefixSeq as bs

/-- Boolean test that `pat` occurs as a contiguous segment inside `l`. -/
def occursInSeq : List Char → List Char → Bool
  | [], pat => pat.isEmpty
  | a :: rest, pat => hasPrefixSeq (a :: rest) pat || occursInSeq rest pat

/-- Substring test modelling Rust `str::contains` with a string pattern:
does `s` contain `pat` as a contiguous substring? -/
def strContains (s pat : String) : Bool :=
  occursInSeq s.data pat.data

/-- Prefix test modelling Rust `str::starts_with`. -/
def strStartsWith (s pre : String) : Bool :=
  hasPrefixSeq s.data pre.data

/-- Lowercase a character (ASCII range; models `to_lowercase` on the ASCII
content-type strings the builder compares against). -/
def charLower (c : Char) : Char :=
  if 'A' ≤ c ∧ c ≤ 'Z' then Char.ofNat (c.toNat + 32) else c

/-- Lowercase a string character-wise (Rust `str::to_lowercase`). -/
def strLower (s : String) : String :=
  String.mk (s.data.map charLower)

/-- Trim leading and trailing whitespace (Rust `str::trim`). -/
def strTrim (s : String) : String :=
  String.mk (((s.data.dropWhile Char.isWhitespace).reverse.dropWhile
    Char.isWhitespace).reverse)

/-- Characters after the last dot of a file name, if any dot is present. -/
def afterLastDot : List Char → Option (List Char)
  | [] => none
  | c :: rest =>
    match afterLastDot rest with
    | some e => some e
    | none => if c == '.' then some rest else none

/-- Cache entry for a single plugin (`PluginCacheEntry` in main.rs):
the hash of all source files and the timestamp of the last successful build. -/
structure PluginCacheEntry where
  source_hash : String
  built_at : Nat
  deriving DecidableEq

/-- Lookup in the build cache map (`BuildCache.get`); the `plugins` HashMap of
`BuildCache` is modelled as an association list with distinct keys. -/
def cacheGet (plugins : List (String × PluginCacheEntry)) (plugin_id : String) :
    Option PluginCacheEntry :=
  (plugins.find? (fun kv => kv.1 == plugin_id)).map Prod.snd

/-- The decision core of `plugin_needs_rebuild` in main.rs.  The filesystem
check `output_path.exists()` is the `outputExists` input; the two fallible I/O
steps (`BuildCache::load()` and `calculate_plugin_hash(plugin_dir)`) are
`Except`-valued inputs, mirroring Rust's `Result` with `?` propagation:
if the output artifact is absent the function returns `Ok(true)` before doing
any cache I/O; otherwise a failing step propagates as an error to the caller. -/
def plugin_needs_rebuild (outputExists : Bool)
    (cacheLoad : Except Unit (List (String × PluginCacheEntry)))
    (freshHash : Except Unit String) (plugin_id : String) : Except Unit Bool :=
  if outputExists = false then Except.ok true
  else
    match cacheLoad with
    | Except.error e => Except.error e
    | Except.ok cache =>
      match freshHash with
      | Except.error e => Except.error e
      | Except.ok h =>
        match cacheGet cache plugin_id with
        | some entry => Except.ok (entry.source_hash != h)
        | none => Except.ok true

/-- The caller's use of `plugin_needs_rebuild` in `build_all_plugins`
(and `build_plugin`): `Ok(true)` builds, `Ok(false)` skips, and
`Err(_)` builds ("Build on error"). -/
def rebuild_decision (outputExists : Bool)
    (cacheLoad : Except Unit (List (String × PluginCacheEntry)))
    (freshHash : Except Unit String) (plugin_id : String) : Bool :=
  match plugin_needs_rebuild outputExists cacheLoad freshHash plugin_id with
  | Except.ok b => b
  | Except.error _ => true

/-- A file inside a plugin directory: its path relative to the directory root,
as a non-empty list of components, and its raw content bytes. -/
structure SrcFile where
  path : List String
  content : List Nat
  deriving DecidableEq

/-- The source-extension allow-list in `calculate_plugin_hash`. -/
def sourceExts : List String :=
  ["rs", "jsx", "js", "ts", "tsx", "json", "toml", "css", "scss"]

/-- Lock files skipped by `calculate_plugin_hash` (exact file names). -/
def lockFileNames : List String :=
  ["package-lock.json", "bun.lockb", "Cargo.lock"]

/-- Build-artifact directory components excluded by `calculate_plugin_hash`. -/
def buildArtifactDirs : List String :=
  ["target", "node_modules", ".git"]

/-- Rust `Path::extension` on a file name: the portion after the final dot,
ignoring a leading dot (a file name that starts with a dot and has no other
dot has no extension); empty string when there is no extension. -/
def fileExt (name : String) : String :=
  let base : List Char :=
    match name.data with
    | '.' :: rest => rest
    | l => l
  ((afterLastDot base).map String.mk).getD ""

/-- The file name of a file: its last path component. -/
def fileName (f : SrcFile) : String :=
  (f.path.getLast?).getD ""

/-- The filter applied by `calculate_plugin_hash` while walking the plugin
directory: keep files whose extension is on the allow-list, excluding files
under build-artifact directories and the exact-name lock files. -/
def isIncluded (f : SrcFile) : Bool :=
  sourceExts.contains (fileExt (fileName f))
    && !(f.path.any (fun c => buildArtifactDirs.contains c))
    && !(lockFileNames.contains (fileName f))

/-- Component-wise path comparison (the `Ord` used by `files.sort()` on
`Vec<PathBuf>`, restricted to paths sharing the `plugin_dir` prefix),
as a Boolean less-or-equal. -/
def pathLe : List String → List String → Bool
  | [], _ => true
  | _ :: _, [] => false
  | a :: as, b :: bs => if a < b then true else if b < a then false else pathLe as bs

/-- Comparison of files by path, used to sort the collected file list. -/
def fileLe (f g : SrcFile) : Bool :=
  pathLe f.path g.path

/-- UTF-8 bytes of a string, as natural numbers
(models `to_string_lossy().as_bytes()` on an already-valid path string). -/
def strBytes (s : String) : List Nat :=
  s.toUTF8.toList.map (fun b => b.toNat)

/-- The textual form of a relative path: components joined by `/`. -/
def relPathString (p : List String) : String :=
  String.intercalate "/" p

/-- The byte stream `calculate_plugin_hash` feeds to the SHA-256 hasher:
for each included file, in path-sorted order, the bytes of its relative path
followed by its content bytes. -/
def hashStream (dir : List SrcFile) : List Nat :=
  ((dir.filter isIncluded).mergeSort fileLe).foldl
    (fun acc f => acc ++ strBytes (relPathString f.path) ++ f.content) []

/-- The digest computed by `calculate_plugin_hash`.  SHA-256 (the external
`sha2` crate) is a pure function of the byte stream fed to it, so the digest
is modelled by that input stream itself: two runs produce the same digest
exactly when they feed the hasher the same stream. -/
def calculate_plugin_hash (dir : List SrcFile) : List Nat :=
  hashStream dir

/-- One handler declaration in the plugin's `router.rs`, i.e. one line of the
form `[pub] [async] fn name(params)`.  The regex in `extract_handlers`
recognizes only declarations that are both `pub` and `async`. -/
structure RouterDecl where
  is_pub : Bool
  is_async : Bool
  name : String
  params : String
  deriving DecidableEq

/-- The first match of the regex `^pub\s+async\s+fn\s+NAME\s*\(([^)]*)\)`
in the router source: the first declaration that is `pub`, `async`, and has
the given name.  A missing `router.rs` is modelled by an empty list. -/
def findDecl (router : List RouterDecl) (handler : String) : Option RouterDecl :=
  router.find? (fun d => d.is_pub && d.is_async && d.name == handler)

/-- The `takes_request` inference in `extract_handlers`: false unless a
matching `pub async fn` declaration is found whose trimmed parameter text is
non-empty and contains `HttpRequest`, `Request`, or `:`. -/
def takes_request (router : List RouterDecl) (handler : String) : Bool :=
  match findDecl router handler with
  | some d =>
    let params_str := strTrim d.params
    !(params_str == "")
      && (strContains params_str "HttpRequest" || strContains params_str "Request"
        || strContains params_str ":")
  | none => false

/-- One step of the first loop of `extract_handlers`: push the handler-name
value of a routes-table entry unless an equal name was already collected. -/
def handlerStep (acc : List (String × Bool)) (kv : String × String) : List (String × Bool) :=
  if acc.any (fun h => h.1 == kv.2) then acc else acc ++ [(kv.2, false)]

/-- The handler list built by `extract_handlers`: walk the `[routes]` table of
`Cargo.toml` collecting each handler-name value not already collected (first
occurrence wins), then fill in `takes_request` for each from the router
source. -/
def extract_handlers (routes_table : List (String × String)) (router : List RouterDecl) :
    List (String × Bool) :=
  (routes_table.foldl handlerStep []).map
    (fun h => (h.1, takes_request router h.1))

/-- How the generated wrapper invokes the target handler: with the decoded
request (`handler(http_request.clone()).await`) or with no argument
(`handler().await`). -/
inductive HandlerCall where
  | withRequest : HandlerCall
  | noArg : HandlerCall
  deriving DecidableEq

/-- One generated `#[no_mangle] pub extern "C"` handler wrapper in the shim:
its exported symbol name and how it invokes the target handler. -/
structure Wrapper where
  name : String
  call : HandlerCall
  deriving DecidableEq

/-- The handler wrappers emitted by `create_lib_rs`: none when `has_routes`
is false, otherwise one wrapper per entry of `extract_handlers`, invoking
with or without the request according to `takes_request`. -/
def create_lib_rs_wrappers (has_routes : Bool) (routes_table : List (String × String))
    (router : List RouterDecl) : List Wrapper :=
  if has_routes = false then []
  else
    (extract_handlers routes_table router).map
      (fun h => { name := h.1, call := if h.2 then HandlerCall.withRequest else HandlerCall.noArg })

/-- A JSON value, as produced by the external JSON library
(`api::serde_json::Value`). -/
inductive JsonVal where
  | jnull : JsonVal
  | jbool (b : Bool) : JsonVal
  | jnum (n : Int) : JsonVal
  | jstr (s : String) : JsonVal
  | jarr (elems : List JsonVal) : JsonVal
  | jobj (fields : List (String × JsonVal)) : JsonVal

/-- The FFI response envelope built by the generated wrapper
(`api::ffi_http::Response`): status, headers, and either an embedded JSON
body or base64-encoded raw bytes.  Base64 (an injective encoding performed
by the external `base64` crate) is modelled by recording the bytes that get
encoded. -/
structure FFIResp where
  status : Nat
  headers : List (String × String)
  body : Option JsonVal
  body_base64 : Option (List Nat)

/-- First header whose key equals `key` (the generated wrapper collects the
response headers into a map before looking up the content type). -/
def lookupHeader (headers : List (String × String)) (key : String) : Option String :=
  (headers.find? (fun kv => kv.1 == key)).map Prod.snd

/-- The content-type computed by the generated wrapper:
`headers.get("content-type").or_else(get "Content-Type")`, defaulting to the
empty string, then lowercased. -/
def contentTypeOf (headers : List (String × String)) : String :=
  strLower (((lookupHeader headers "content-type").orElse
    (fun _ => lookupHeader headers "Content-Type")).getD "")

/-- The `is_binary` test of the generated wrapper: the lowercased content
type starts with `image/` or starts with `application/octet-stream`. -/
def isBinaryContentType (ct : String) : Bool :=
  strStartsWith ct "image/" || strStartsWith ct "application/octet-stream"

/-- The response-encoding logic of the generated handler wrapper, for a
handler response with the given status, headers and raw body bytes.
The external decoding steps are parameters: `utf8` models
`String::from_utf8(body_bytes)` (None on invalid UTF-8) and `parseJson`
models `serde_json::from_str::<Value>` (None when not a JSON document). -/
def encode_response (utf8 : List Nat → Option String) (parseJson : String → Option JsonVal)
    (status : Nat) (headers : List (String × String)) (body_bytes : List Nat) : FFIResp :=
  let ct := contentTypeOf headers
  if isBinaryContentType ct then
    { status := status, headers := headers, body := none, body_base64 := some body_bytes }
  else
    match utf8 body_bytes with
    | some body_str =>
      match parseJson body_str with
      | some v => { status := status, headers := headers, body := some v, body_base64 := none }
      | none =>
        { status := status, headers := headers, body := some (JsonVal.jstr body_str),
          body_base64 := none }
    | none =>
      { status := status, headers := headers, body := none, body_base64 := some body_bytes }

/-- The observable outcome of invoking the target handler inside the
generated wrapper: either the handler panics (a runtime fault caught by
`panic::catch_unwind`), or it completes with a response. -/
inductive HandlerOutcome where
  | panics : HandlerOutcome
  | returns (status : Nat) (headers : List (String × String)) (body_bytes : List Nat) :
      HandlerOutcome

/-- The fixed payload returned when `catch_unwind` reports a panic:
`{"status":500,"headers":{"Content-Type":"application/json"},"body":{"error":"Handler panicked"}}`. -/
def panic_response : FFIResp :=
  { status := 500, headers := [("Content-Type", "application/json")],
    body := some (JsonVal.jobj [("error", JsonVal.jstr "Handler panicked")]),
    body_base64 := none }

/-- End-to-end semantics of one generated handler wrapper, as a total
function: request decoding (`HttpRequest::from_ffi_json`) is an
`Except`-valued input (error carries the message placed in the 400 reply);
`catch_unwind` around the handler invocation is modelled by the
`HandlerOutcome` sum, so a panic yields `panic_response` as a value and is
never propagated. -/
def handler_wrapper (utf8 : List Nat → Option String) (parseJson : String → Option JsonVal)
    (decoded : Except String Unit) (outcome : HandlerOutcome) : FFIResp :=
  match decoded with
  | Except.error e =>
    { status := 400, headers := [], body := some (JsonVal.jobj [("error", JsonVal.jstr e)]),
      body_base64 := none }
  | Except.ok _ =>
    match outcome with
    | HandlerOutcome.panics => panic_response
    | HandlerOutcome.returns st hs b => encode_response utf8 parseJson st hs b

/-- The body-encoding rule exactly as the specification sentence words it:
base64 when the content type starts with `image/` or IS (exact equality)
`application/octet-stream`; otherwise the UTF-8 / JSON cascade.  Declared
only to compare the claim's wording against the code's prefix test. -/
def claim_encode_body (utf8 : List Nat → Option String) (parseJson : String → Option JsonVal)
    (ct : String) (body_bytes : List Nat) : Option JsonVal × Option (List Nat) :=
  if strStartsWith ct "image/" || ct == "application/octet-stream" then (none, some body_bytes)
  else
    match utf8 body_bytes with
    | some body_str =>
      match parseJson body_str with
      | some v => (some v, none)
      | none => (some (JsonVal.jstr body_str), none)
    | none => (none, some body_bytes)

/-- Concrete UTF-8 oracle for counterexamples and witnesses: byte 49 is the
ASCII digit one. -/
def cex_utf8 : List Nat → Option String :=
  fun b => if b == [49] then some "1" else none

/-- Concrete JSON-parsing oracle for counterexamples and witnesses:
the text of the digit one parses as the JSON number one. -/
def cex_parse : String → Option JsonVal :=
  fun s => if s == "1" then some (JsonVal.jnum 1) else none

/-- One parsed route entry (the JSON objects built by `extract_routes`). -/
structure RouteEntry where
  method : String
  path : String
  handler : String
  deriving DecidableEq

/-- Split a character list at the first space character: `none` when no
space occurs (Rust `splitn(2, ' ')` yielding fewer than two parts). -/
def splitFirstSpace : List Char → Option (List Char × List Char)
  | [] => none
  | c :: rest =>
    if c = ' ' then some ([], rest)
    else (splitFirstSpace rest).map (fun mp => (c :: mp.1, mp.2))

/-- Split a route-table key on the first space into method and path
(`key.splitn(2, ' ')` in `extract_routes`); `none` models the malformed
case of fewer than two parts. -/
def splitKey (key : String) : Option (String × String) :=
  (splitFirstSpace key.data).map (fun mp => (String.mk mp.1, String.mk mp.2))

/-- One step of the loop of `extract_routes`: push `{method, path, handler}`
when the key splits on its first space, and skip the entry otherwise. -/
def routeStep (acc : List RouteEntry) (kv : String × String) : List RouteEntry :=
  match splitKey kv.1 with
  | some mp => acc ++ [{ method := mp.1, path := mp.2, handler := kv.2 }]
  | none => acc

/-- The route list built by `extract_routes` from the `[routes]` table of
`Cargo.toml`: for each key-value pair in table order, push
`{method, path, handler}` when the key splits on its first space, and skip
the entry otherwise. -/
def extract_routes (routes_table : List (String × String)) : List RouteEntry :=
  routes_table.foldl routeStep []

/-- One plugin entry of `webarcade.config.json` (`PluginConfigEntry` in
main.rs). -/
structure PluginConfigEntry where
  name : String
  version : String
  description : String
  author : String
  path : String
  has_backend : Bool
  has_frontend : Bool
  priority : Int
  enabled : Bool
  routes : List RouteEntry
  deriving DecidableEq

/-- The default priority (`default_priority()` in main.rs). -/
def default_priority : Int := 100

/-- Package metadata read from the plugin's `package.json`
(name, version, description, author). -/
structure PkgMeta where
  name : String
  version : String
  description : String
  author : String
  deriving DecidableEq

/-- The artifact path recorded in the registry entry by
`update_config_for_plugin`: `<id>.dll` for backend plugins (with no
dependence on the target OS), `<id>.js` otherwise. -/
def config_path_field (plugin_id : String) (has_backend : Bool) : String :=
  if has_backend then plugin_id ++ ".dll" else plugin_id ++ ".js"

/-- HashMap insert on the `plugins` map of the config
(`WebArcadeConfig::upsert_plugin`): replace any entry with the same id. -/
def upsertPlugin (plugins : List (String × PluginConfigEntry)) (plugin_id : String)
    (entry : PluginConfigEntry) : List (String × PluginConfigEntry) :=
  (plugin_id, entry) :: plugins.filter (fun kv => !(kv.1 == plugin_id))

/-- Lookup in the `plugins` map of the config. -/
def cfgGet (plugins : List (String × PluginConfigEntry)) (plugin_id : String) :
    Option PluginConfigEntry :=
  (plugins.find? (fun kv => kv.1 == plugin_id)).map Prod.snd

/-- The registry update performed by `update_config_for_plugin` after a
successful build: build a fresh entry (metadata from `package.json` when
present, else `{id, "1.0.0", "", ""}`; path from `config_path_field`;
`priority := default_priority()`; `enabled := true`) and upsert it,
replacing whatever entry was stored before. -/
def update_config_for_plugin (plugin_id : String) (pkgMeta : Option PkgMeta)
    (has_backend has_frontend : Bool) (routes : List RouteEntry)
    (plugins : List (String × PluginConfigEntry)) : List (String × PluginConfigEntry) :=
  let meta := pkgMeta.getD
    { name := plugin_id, version := "1.0.0", description := "", author := "" }
  let entry : PluginConfigEntry :=
    { name := meta.name, version := meta.version, description := meta.description,
      author := meta.author, path := config_path_field plugin_id has_backend,
      has_backend := has_backend, has_frontend := has_frontend,
      priority := default_priority, enabled := true, routes := routes }
  upsertPlugin plugins plugin_id entry

/-- The target operating systems distinguished by the `cfg!` chains in
main.rs. -/
inductive TargetOS where
  | windows : TargetOS
  | macos : TargetOS
  | linux : TargetOS
  deriving DecidableEq

/-- The compiled-library file name used by `install_dll` (and by
`plugin_needs_rebuild`): OS-dependent via `cfg!(target_os = ...)`. -/
def lib_name (os : TargetOS) (plugin_id : String) : String :=
  match os with
  | TargetOS.windows => plugin_id ++ ".dll"
  | TargetOS.macos => "lib" ++ plugin_id ++ ".dylib"
  | TargetOS.linux => "lib" ++ plugin_id ++ ".so"

/-- The two persistent stores whose joint update C8 is about, projected to
one plugin id: the fingerprint-cache hash recorded for the plugin, and its
config-registry entry. -/
structure Stores where
  cache : Option String
  config : Option PluginConfigEntry
  deriving DecidableEq

/-- The store-updating skeleton of `build_plugin_internal`, sequencing
`builder.build()?`, then `update_build_cache(..)?` (whose final `fs::write`
persists the new hash), then `update_config_for_plugin(..)?` (whose final
`config.save` persists the new entry).  Each fallible step is a success
flag; a failing step leaves the corresponding store untouched and aborts the
sequence with an error result, exactly as `?` does in the Rust source. -/
def build_plugin_internal (buildOk cacheSaveOk configSaveOk : Bool)
    (newHash : String) (newEntry : PluginConfigEntry) (s : Stores) : Bool × Stores :=
  if buildOk = false then (false, s)
  else if cacheSaveOk = false then (false, s)
  else
    let s1 : Stores := { s with cache := some newHash }
    if configSaveOk = false then (false, s1)
    else (true, { s1 with config := some newEntry })

/-- A concrete config-registry entry used in concrete runs of
`build_plugin_internal`. -/
def demo_entry : PluginConfigEntry :=
  { name := "p", version := "1.0.0", description := "", author := "", path := "p.dll",
    has_backend := true, has_frontend := true, priority := 100, enabled := true, routes := [] }

/-- A concrete router source declaring `pub async fn hx(req: HttpRequest)`. -/
def demoRouter : List RouterDecl :=
  [{ is_pub := true, is_async := true, name := "hx", params := "req: HttpRequest" }]

/-- A concrete router source declaring `pub async fn handle_me(self)`:
the declared parameter list is non-empty but contains none of the
request-like tokens the builder looks for. -/
def selfRouter : List RouterDecl :=
  [{ is_pub := true, is_async := true, name := "handle_me", params := "self" }]

/-- Concrete plugin-directory files for runs of `calculate_plugin_hash`. -/
def wfile1 : SrcFile := { path := ["a.rs"], content := [1] }

/-- Second concrete source file. -/
def wfile2 : SrcFile := { path := ["b.rs"], content := [2] }

/-- A `Cargo.lock` file (excluded from hashing), first variant. -/
def wlock1 : SrcFile := { path := ["Cargo.lock"], content := [7] }

/-- A `Cargo.lock` file (excluded from hashing), second variant with
different content. -/
def wlock2 : SrcFile := { path := ["Cargo.lock"], content := [8] }

/-!
Theorems.
-/

/-- C1: the rebuild decision computed by `plugin_needs_rebuild` and consumed
in `build_all_plugins` is true exactly when the expected artifact is absent,
or no fingerprint-cache entry exists for the plugin id, or the stored digest
differs from the freshly computed digest; and whenever an I/O failure occurs
while computing this decision, the caller decides to rebuild, never to skip. -/
theorem plugin_needs_rebuild_correct (outputExists : Bool)
    (cache : List (String × PluginCacheEntry)) (h : String) (plugin_id : String) :
    (rebuild_decision outputExists (Except.ok cache) (Except.ok h) plugin_id = true ↔
      (outputExists = false ∨ cacheGet cache plugin_id = none ∨
        ∃ entry, cacheGet cache plugin_id = some entry ∧ entry.source_hash ≠ h)) ∧
    (∀ cacheLoad freshHash, (cacheLoad.isOk = false ∨ freshHash.isOk = false) →
      rebuild_decision outputExists cacheLoad freshHash plugin_id = true) := by
  constructor
  · unfold rebuild_decision plugin_needs_rebuild
    cases outputExists with
    | false => simp
    | true =>
      simp only [Bool.true_eq_false, if_false]
      cases hc : cacheGet cache plugin_id with
      | none => simp
      | some entry =>
        simp [bne_iff_ne]
  · intro cacheLoad freshHash hbad
    unfold rebuild_decision plugin_needs_rebuild
    cases outputExists with
    | false => simp
    | true =>
      cases cacheLoad with
      | error e => simp
      | ok c =>
        cases freshHash with
        | error e => simp
        | ok hh => rcases hbad with hb | hb <;> simp [Except.isOk, Except.toBool] at hb

/-- Witness for C1: with an existing artifact and an empty cache the decision
is rebuild, and with a failing cache load the decision is also rebuild. -/
theorem plugin_needs_rebuild_correct_witness :
    rebuild_decision true (Except.ok []) (Except.ok "a") "p" = true ∧
    rebuild_decision true (Except.error ()) (Except.ok "a") "p" = true :=
  ⟨(plugin_needs_rebuild_correct true [] "a" "p").1.mpr (Or.inr (Or.inl rfl)),
   (plugin_needs_rebuild_correct true [] "a" "p").2 (Except.error ()) (Except.ok "a")
     (Or.inl rfl)⟩

/-- C6: when the handler panics during invocation, the generated wrapper
returns (as an ordinary value, so the fault never crosses the FFI boundary)
the fixed response with status 500 whose JSON body carries an error field. -/
theorem handler_wrapper_panic_contained (utf8 : List Nat → Option String)
    (parseJson : String → Option JsonVal) :
    handler_wrapper utf8 parseJson (Except.ok ()) HandlerOutcome.panics = panic_response ∧
    panic_response.status = 500 ∧
    panic_response.body = some (JsonVal.jobj [("error", JsonVal.jstr "Handler panicked")]) :=
  ⟨rfl, rfl, rfl⟩

/-- Upserting an entry makes it the one found for that id. -/
theorem cfgGet_upsert (plugins : List (String × PluginConfigEntry)) (plugin_id : String)
    (entry : PluginConfigEntry) : cfgGet (upsertPlugin plugins plugin_id entry) plugin_id =
      some entry := by
  simp [cfgGet, upsertPlugin, List.find?_cons_of_pos]

/-- C9: after every successful build, the registry entry written for the
plugin has enabled true and priority 100, regardless of whatever entry was
previously stored for that plugin. -/
theorem update_config_overwrites_enabled_priority (plugin_id : String)
    (pkgMeta : Option PkgMeta) (has_backend has_frontend : Bool)
    (routes : List RouteEntry) (plugins : List (String × PluginConfigEntry)) :
    ∃ entry,
      cfgGet (update_config_for_plugin plugin_id pkgMeta has_backend has_frontend routes plugins)
          plugin_id = some entry ∧
        entry.enabled = true ∧ entry.priority = 100 := by
  unfold update_config_for_plugin
  exact ⟨_, cfgGet_upsert _ _ _, rfl, rfl⟩

/-- C10: the path recorded by `update_config_for_plugin` for a backend plugin
is the id followed by .dll with no dependence on the target OS, while the
artifact `install_dll` installs is named lib-id-.so on Linux and
lib-id-.dylib on macOS, so on those systems the recorded path never matches
the installed file name; for frontend-only plugins the recorded path is the
id followed by .js. -/
theorem config_path_ignores_os (os : TargetOS) (plugin_id : String) :
    config_path_field plugin_id true = plugin_id ++ ".dll" ∧
    config_path_field plugin_id false = plugin_id ++ ".js" ∧
    lib_name TargetOS.linux plugin_id = "lib" ++ plugin_id ++ ".so" ∧
    lib_name TargetOS.macos plugin_id = "lib" ++ plugin_id ++ ".dylib" ∧
    ((os = TargetOS.linux ∨ os = TargetOS.macos) →
      lib_name os plugin_id ≠ config_path_field plugin_id true) := by
  refine ⟨rfl, rfl, rfl, rfl, ?_⟩
  have h3 : ("lib" : String).length = 3 := rfl
  have h4 : (".dll" : String).length = 4 := rfl
  have hso : (".so" : String).length = 3 := rfl
  have hdy : (".dylib" : String).length = 6 := rfl
  rintro (rfl | rfl) heq
  · have := congrArg String.length heq
    simp [lib_name, config_path_field, String.length_append, h3, h4, hso] at this
    omega
  · have := congrArg String.length heq
    simp [lib_name, config_path_field, String.length_append, h3, h4, hdy] at this
    omega

/-- Witness for C10: on Linux the recorded path of a backend plugin differs
from the installed library file name. -/
theorem config_path_ignores_os_witness :
    lib_name TargetOS.linux "p" ≠ config_path_field "p" true :=
  (config_path_ignores_os TargetOS.linux "p").2.2.2.2 (Or.inl rfl)

/-- C8 counterexample: a build in which compilation, artifact installation
and the fingerprint-cache save all succeed but the config-registry save then
fails ends (the run reports failure) with the fingerprint cache reflecting
the new build while the config registry does not, so the two stores are not
updated atomically together. -/
theorem build_plugin_internal_divergence_cex :
    (build_plugin_internal true true false "newhash" demo_entry
        { cache := none, config := none }).2.cache = some "newhash" ∧
    (build_plugin_internal true true false "newhash" demo_entry
        { cache := none, config := none }).2.config = none ∧
    (build_plugin_internal true true false "newhash" demo_entry
        { cache := none, config := none }).1 = false :=
  ⟨rfl, rfl, rfl⟩

/-- C8 amended: when the whole pipeline (build, cache save, registry save)
succeeds, both stores are updated together, and the registry entry is never
updated without the cache entry also being updated; only the converse
divergence (cache updated, registry not) is reachable, when the registry
save fails after the cache save succeeded. -/
theorem build_plugin_internal_update_order (buildOk cacheSaveOk configSaveOk : Bool)
    (newHash : String) (newEntry : PluginConfigEntry) (s : Stores)
    (hc : s.cache = none) (hcfg : s.config = none) :
    ((build_plugin_internal buildOk cacheSaveOk configSaveOk newHash newEntry s).1 = true →
      (build_plugin_internal buildOk cacheSaveOk configSaveOk newHash newEntry s).2.cache =
          some newHash ∧
        (build_plugin_internal buildOk cacheSaveOk configSaveOk newHash newEntry s).2.config =
          some newEntry) ∧
    ((build_plugin_internal buildOk cacheSaveOk configSaveOk newHash newEntry s).2.config.isSome =
        true →
      (build_plugin_internal buildOk cacheSaveOk configSaveOk newHash newEntry s).2.cache =
        some newHash) := by
  cases buildOk <;> cases cacheSaveOk <;> cases configSaveOk <;>
    simp [build_plugin_internal, hc, hcfg]

/-- Witness for C8: a fully successful run updates both stores together. -/
theorem build_plugin_internal_update_order_witness :
    (build_plugin_internal true true true "h" demo_entry
        { cache := none, config := none }).2.cache = some "h" ∧
    (build_plugin_internal true true true "h" demo_entry
        { cache := none, config := none }).2.config = some demo_entry :=
  (build_plugin_internal_update_order true true true "h" demo_entry
      { cache := none, config := none } rfl rfl).1 rfl

/-- C5 counterexample: for the content-type header value
application/octet-stream;charset=utf-8 — which starts with but is not equal
to application/octet-stream — and a body that is valid UTF-8 and parses as
JSON, the generated wrapper base64-encodes the body (body absent), while the
claim's wording (base64 only when the content type IS
application/octet-stream) requires the parsed JSON value to be embedded. -/
theorem encode_response_octet_prefix_cex :
    (handler_wrapper cex_utf8 cex_parse (Except.ok ())
        (HandlerOutcome.returns 200
          [("content-type", "application/octet-stream;charset=utf-8")] [49])).body_base64 =
      some [49] ∧
    (handler_wrapper cex_utf8 cex_parse (Except.ok ())
        (HandlerOutcome.returns 200
          [("content-type", "application/octet-stream;charset=utf-8")] [49])).body = none ∧
    claim_encode_body cex_utf8 cex_parse "application/octet-stream;charset=utf-8" [49] =
      (some (JsonVal.jnum 1), none) ∧
    ("application/octet-stream;charset=utf-8" : String) ≠ "application/octet-stream" :=
  ⟨rfl, rfl, rfl, by decide⟩

/-- C5 amended: the generated wrapper's encoding rules, checked in order,
with a prefix match (not equality) on application/octet-stream: if the
lowercased content type starts with image/ or starts with
application/octet-stream, the body bytes are base64-encoded and body is
absent; otherwise if they decode as UTF-8 and parse as JSON the parsed value
is embedded; otherwise if UTF-8 but not JSON the text is embedded as a JSON
string; otherwise base64.  The response status is the handler's status. -/
theorem encode_response_rules (utf8 : List Nat → Option String)
    (parseJson : String → Option JsonVal) (st : Nat)
    (headers : List (String × String)) (body_bytes : List Nat) :
    (isBinaryContentType (contentTypeOf headers) = true →
      (handler_wrapper utf8 parseJson (Except.ok ())
          (HandlerOutcome.returns st headers body_bytes)).body_base64 = some body_bytes ∧
      (handler_wrapper utf8 parseJson (Except.ok ())
          (HandlerOutcome.returns st headers body_bytes)).body = none) ∧
    (isBinaryContentType (contentTypeOf headers) = false →
      (∀ s v, utf8 body_bytes = some s → parseJson s = some v →
        (handler_wrapper utf8 parseJson (Except.ok ())
            (HandlerOutcome.returns st headers body_bytes)).body = some v ∧
        (handler_wrapper utf8 parseJson (Except.ok ())
            (HandlerOutcome.returns st headers body_bytes)).body_base64 = none) ∧
      (∀ s, utf8 body_bytes = some s → parseJson s = none →
        (handler_wrapper utf8 parseJson (Except.ok ())
            (HandlerOutcome.returns st headers body_bytes)).body = some (JsonVal.jstr s) ∧
        (handler_wrapper utf8 parseJson (Except.ok ())
            (HandlerOutcome.returns st headers body_bytes)).body_base64 = none) ∧
      (utf8 body_bytes = none →
        (handler_wrapper utf8 parseJson (Except.ok ())
            (HandlerOutcome.returns st headers body_bytes)).body_base64 = some body_bytes ∧
        (handler_wrapper utf8 parseJson (Except.ok ())
            (HandlerOutcome.returns st headers body_bytes)).body = none)) ∧
    (isBinaryContentType (contentTypeOf headers) = true ↔
      (strStartsWith (contentTypeOf headers) "image/" = true ∨
        strStartsWith (contentTypeOf headers) "application/octet-stream" = true)) ∧
    (handler_wrapper utf8 parseJson (Except.ok ())
        (HandlerOutcome.returns st headers body_bytes)).status = st := by
  refine ⟨?_, ?_, ?_, ?_⟩
  · intro hb
    simp [handler_wrapper, encode_response, hb]
  · intro hb
    refine ⟨?_, ?_, ?_⟩
    · intro s v hu hp
      simp [handler_wrapper, encode_response, hb, hu, hp]
    · intro s hu hp
      simp [handler_wrapper, encode_response, hb, hu, hp]
    · intro hu
      simp [handler_wrapper, encode_response, hb, hu]
  · simp [isBinaryContentType]
  · by_cases hb : isBinaryContentType (contentTypeOf headers)
    · simp [handler_wrapper, encode_response, hb]
    · cases hu : utf8 body_bytes with
      | none => simp [handler_wrapper, encode_response, hb, hu]
      | some s =>
        cases hp : parseJson s with
        | none => simp [handler_wrapper, encode_response, hb, hu, hp]
        | some v => simp [handler_wrapper, encode_response, hb, hu, hp]

/-- Witness for C5 (also the claim's own example): a response with header
content-type image/png yields an envelope with bodyBase64 set and body
absent. -/
theorem encode_response_rules_witness :
    (handler_wrapper cex_utf8 cex_parse (Except.ok ())
        (HandlerOutcome.returns 200 [("content-type", "image/png")] [0])).body_base64 =
      some [0] ∧
    (handler_wrapper cex_utf8 cex_parse (Except.ok ())
        (HandlerOutcome.returns 200 [("content-type", "image/png")] [0])).body = none :=
  (encode_response_rules cex_utf8 cex_parse 200 [("content-type", "image/png")] [0]).1
    (by decide)

/-- A character list splits at a space exactly when it contains one. -/
theorem splitFirstSpace_eq_none_iff (l : List Char) :
    splitFirstSpace l = none ↔ ' ' ∉ l := by
  induction l with
  | nil => simp [splitFirstSpace]
  | cons c rest ih =>
    by_cases hc : c = ' '
    · subst hc
      simp [splitFirstSpace]
    · simp [splitFirstSpace, hc, Option.map_eq_none', ih, Ne.symm hc]

/-- A successful split is at the first space: the input is the left part,
a space, then the right part, and the left part contains no space. -/
theorem splitFirstSpace_eq_some (l a b : List Char) :
    splitFirstSpace l = some (a, b) → l = a ++ ' ' :: b ∧ ' ' ∉ a := by
  induction l generalizing a b with
  | nil => simp [splitFirstSpace]
  | cons c rest ih =>
    intro h
    by_cases hc : c = ' '
    · subst hc
      simp [splitFirstSpace] at h
      obtain ⟨rfl, rfl⟩ := h
      simp
    · simp only [splitFirstSpace, hc, if_false] at h
      cases hs : splitFirstSpace rest with
      | none => rw [hs] at h; simp at h
      | some mp =>
        cases mp with
        | mk m1 m2 =>
          rw [hs] at h
          simp only [Option.map_some', Option.some.injEq, Prod.mk.injEq] at h
          obtain ⟨h1, h2⟩ := h
          obtain ⟨hl, hna⟩ := ih m1 m2 hs
          subst h1 h2
          constructor
          · rw [List.cons_append, ← hl]
          · simp [hna, Ne.symm hc]

/-- Appending the processed prefix: the route fold with any accumulator. -/
theorem extract_routes_foldl_acc (tbl : List (String × String)) (acc : List RouteEntry) :
    tbl.foldl routeStep acc = acc ++ tbl.foldl routeStep [] := by
  induction tbl generalizing acc with
  | nil => simp
  | cons kv rest ih =>
    simp only [List.foldl_cons]
    rw [ih (routeStep acc kv), ih (routeStep [] kv)]
    unfold routeStep
    cases splitKey kv.1 with
    | some mp => simp
    | none => simp

/-- C7: route-table parsing splits each key at its first space character
into method and path, skips (without failing) every key that has no space,
and on the concrete table with key GET /hello and value handle_hello yields
exactly the one entry with method GET, path /hello, handler handle_hello. -/
theorem extract_routes_spec :
    (∀ k v rest, splitKey k = none → extract_routes ((k, v) :: rest) = extract_routes rest) ∧
    (∀ k v rest m p, splitKey k = some (m, p) →
      extract_routes ((k, v) :: rest) =
        { method := m, path := p, handler := v } :: extract_routes rest) ∧
    (∀ k m p, splitKey k = some (m, p) → k.data = m.data ++ ' ' :: p.data ∧ ' ' ∉ m.data) ∧
    (∀ k, splitKey k = none ↔ ' ' ∉ k.data) ∧
    extract_routes [("GET /hello", "handle_hello")] =
      [{ method := "GET", path := "/hello", handler := "handle_hello" }] := by
  refine ⟨?_, ?_, ?_, ?_, by decide⟩
  · intro k v rest hk
    unfold extract_routes
    simp only [List.foldl_cons]
    rw [extract_routes_foldl_acc rest (routeStep [] (k, v))]
    unfold routeStep
    rw [hk]
    simp [extract_routes]
  · intro k v rest m p hk
    unfold extract_routes
    simp only [List.foldl_cons]
    rw [extract_routes_foldl_acc rest (routeStep [] (k, v))]
    unfold routeStep
    rw [hk]
    simp [extract_routes]
  · intro k m p hk
    unfold splitKey at hk
    cases hs : splitFirstSpace k.data with
    | none => rw [hs] at hk; simp at hk
    | some mp =>
      rw [hs] at hk
      simp at hk
      obtain ⟨h1, h2⟩ := hk
      obtain ⟨hl, hna⟩ := splitFirstSpace_eq_some k.data mp.1 mp.2 (by rw [hs])
      subst h1 h2
      exact ⟨hl, hna⟩
  · intro k
    unfold splitKey
    rw [Option.map_eq_none']
    exact splitFirstSpace_eq_none_iff k.data

/-- Witness for C7: a key with no space is skipped and a well-formed key
produces its split entry. -/
theorem extract_routes_spec_witness :
    extract_routes [("GEThello", "h")] = extract_routes [] ∧
    extract_routes [("GET /hello", "handle_hello")] =
      { method := "GET", path := "/hello", handler := "handle_hello" } :: extract_routes [] ∧
    ("GET /hello" : String).data = ("GET" : String).data ++ ' ' :: ("/hello" : String).data :=
  ⟨extract_routes_spec.1 "GEThello" "h" [] (by decide),
   extract_routes_spec.2.1 "GET /hello" "handle_hello" [] "GET" "/hello" (by decide),
   (extract_routes_spec.2.2.1 "GET /hello" "GET" "/hello" (by decide)).1⟩

/-- Membership in the handler names collected by the first loop of
`extract_handlers`, for an arbitrary accumulator. -/
theorem handlerStep_foldl_mem (tbl : List (String × String)) (acc : List (String × Bool))
    (y : String) :
    (y ∈ (tbl.foldl handlerStep acc).map Prod.fst ↔
      y ∈ acc.map Prod.fst ∨ y ∈ tbl.map Prod.snd) := by
  induction tbl generalizing acc with
  | nil => simp
  | cons kv rest ih =>
    simp only [List.foldl_cons, List.map_cons, List.mem_cons]
    rw [ih (handlerStep acc kv)]
    unfold handlerStep
    by_cases hmem : acc.any (fun h => h.1 == kv.2) = true
    · rw [if_pos hmem]
      simp only [List.any_eq_true, beq_iff_eq] at hmem
      obtain ⟨x, hx, hxe⟩ := hmem
      have hv : kv.2 ∈ acc.map Prod.fst := List.mem_map.mpr ⟨x, hx, hxe⟩
      constructor
      · rintro (hy | hy)
        · exact Or.inl hy
        · exact Or.inr (Or.inr hy)
      · rintro (hy | hy | hy)
        · exact Or.inl hy
        · subst hy; exact Or.inl hv
        · exact Or.inr hy
    · rw [if_neg hmem]
      rw [List.map_append]
      simp only [List.map_cons, List.map_nil, List.mem_append, List.mem_singleton]
      tauto

/-- The handler names collected by the first loop of `extract_handlers` are
pairwise distinct, for any accumulator with distinct names. -/
theorem handlerStep_foldl_nodup (tbl : List (String × String)) (acc : List (String × Bool))
    (hacc : (acc.map Prod.fst).Nodup) :
    ((tbl.foldl handlerStep acc).map Prod.fst).Nodup := by
  induction tbl generalizing acc with
  | nil => exact hacc
  | cons kv rest ih =>
    simp only [List.foldl_cons]
    apply ih
    unfold handlerStep
    by_cases hmem : acc.any (fun h => h.1 == kv.2) = true
    · rw [if_pos hmem]; exact hacc
    · rw [if_neg hmem]
      rw [List.map_append, List.nodup_append]
      refine ⟨hacc, by simp, ?_⟩
      intro a ha hb
      simp only [List.map_cons, List.map_nil, List.mem_singleton] at hb
      subst hb
      obtain ⟨x, hx, hxe⟩ := List.mem_map.mp ha
      exact hmem (List.any_eq_true.mpr ⟨x, hx, by simp [hxe]⟩)

/-- C3: the generated shim contains exactly one exported handler wrapper per
unique handler-name value of the route table (`create_lib_rs` is invoked
with `has_routes` true exactly when the `[routes]` table is non-empty):
the wrapper names are pairwise distinct and their number equals the number
of distinct handler-name values. -/
theorem create_lib_rs_unique_symbols (routes_table : List (String × String))
    (router : List RouterDecl) :
    ((create_lib_rs_wrappers (!routes_table.isEmpty) routes_table router).map
        Wrapper.name).Nodup ∧
    (create_lib_rs_wrappers (!routes_table.isEmpty) routes_table router).length =
      (routes_table.map Prod.snd).toFinset.card := by
  cases routes_table with
  | nil => simp [create_lib_rs_wrappers]
  | cons kv rest =>
    have hnames : (create_lib_rs_wrappers (!((kv :: rest).isEmpty)) (kv :: rest) router).map
        Wrapper.name = ((kv :: rest).foldl handlerStep []).map Prod.fst := by
      unfold create_lib_rs_wrappers extract_handlers
      simp only [List.isEmpty_cons, Bool.not_false, Bool.true_eq_false, if_false]
      rw [List.map_map, List.map_map]
      rfl
    have hnodup : (((kv :: rest).foldl handlerStep []).map Prod.fst).Nodup :=
      handlerStep_foldl_nodup (kv :: rest) [] (by simp)
    refine ⟨by rw [hnames]; exact hnodup, ?_⟩
    have hlen : (create_lib_rs_wrappers (!((kv :: rest).isEmpty)) (kv :: rest) router).length =
        (((kv :: rest).foldl handlerStep []).map Prod.fst).length := by
      rw [← List.length_map _ Wrapper.name, hnames]
    rw [hlen, ← List.toFinset_card_of_nodup hnodup]
    congr 1
    apply Finset.ext
    intro y
    simp only [List.mem_toFinset]
    rw [handlerStep_foldl_mem]
    simp

/-- Characterization of the `takes_request` inference: true exactly when a
matching `pub async fn` declaration exists whose trimmed parameter text is
non-empty and contains one of the request-like tokens. -/
theorem takes_request_iff (router : List RouterDecl) (handler : String) :
    takes_request router handler = true ↔
      ∃ d, findDecl router handler = some d ∧ strTrim d.params ≠ "" ∧
        (strContains (strTrim d.params) "HttpRequest" = true ∨
          strContains (strTrim d.params) "Request" = true ∨
          strContains (strTrim d.params) ":" = true) := by
  unfold takes_request
  cases hd : findDecl router handler with
  | none => simp
  | some d =>
    simp only [Bool.and_eq_true, Bool.not_eq_true', beq_eq_false_iff_ne, Bool.or_eq_true,
      Option.some.injEq]
    constructor
    · rintro ⟨hne, hor⟩
      exact ⟨d, rfl, hne, by tauto⟩
    · rintro ⟨d', hd', hne, hor⟩
      subst hd'
      exact ⟨hne, by tauto⟩

/-- C4 amended: a generated wrapper invokes its handler with the decoded
request exactly when the router source has a matching `pub async fn`
declaration whose trimmed parameter list is non-empty and contains
`HttpRequest`, `Request`, or a colon; in particular a matched declaration
with an empty parameter list is always invoked with no argument (the
preserved half of the original claim). -/
theorem wrapper_call_characterization (routes_table : List (String × String))
    (router : List RouterDecl) (w : Wrapper)
    (hw : w ∈ create_lib_rs_wrappers true routes_table router) :
    (w.call = HandlerCall.withRequest ↔
      ∃ d, findDecl router w.name = some d ∧ strTrim d.params ≠ "" ∧
        (strContains (strTrim d.params) "HttpRequest" = true ∨
          strContains (strTrim d.params) "Request" = true ∨
          strContains (strTrim d.params) ":" = true)) ∧
    (∀ d, findDecl router w.name = some d → strTrim d.params = "" →
      w.call = HandlerCall.noArg) := by
  unfold create_lib_rs_wrappers at hw
  simp only [Bool.true_eq_false, if_false, List.mem_map] at hw
  obtain ⟨h0, hh0, hw⟩ := hw
  unfold extract_handlers at hh0
  rw [List.mem_map] at hh0
  obtain ⟨h1, hh1, hh0e⟩ := hh0
  subst hh0e
  subst hw
  dsimp only
  constructor
  · rw [← takes_request_iff]
    by_cases ht : takes_request router h1.1 = true
    · simp [ht]
    · simp [ht]
  · intro d hd hempty
    have ht : takes_request router h1.1 = false := by
      unfold takes_request
      rw [hd]
      simp [hempty]
    simp [ht]

/-- C4 counterexample: with router source `pub async fn handle_me(self)` the
declared parameter list is non-empty, yet the generated wrapper invokes the
handler with no decoded-request argument, contradicting the claim that every
handler with a non-empty declared parameter list receives the decoded
request. -/
theorem wrapper_nonempty_params_no_request_cex :
    create_lib_rs_wrappers true [("GET /x", "handle_me")] selfRouter =
      [{ name := "handle_me", call := HandlerCall.noArg }] ∧
    findDecl selfRouter "handle_me" =
      some { is_pub := true, is_async := true, name := "handle_me", params := "self" } ∧
    strTrim "self" ≠ "" ∧
    ({ name := "handle_me", call := HandlerCall.noArg } : Wrapper).call ≠
      HandlerCall.withRequest :=
  ⟨rfl, rfl, by decide, by decide⟩

/-- Witness for C4: a handler declared `pub async fn hx(req: HttpRequest)`
is matched and its wrapper passes the decoded request. -/
theorem wrapper_call_characterization_witness :
    ∃ d, findDecl demoRouter "hx" = some d ∧ strTrim d.params ≠ "" ∧
      (strContains (strTrim d.params) "HttpRequest" = true ∨
        strContains (strTrim d.params) "Request" = true ∨
        strContains (strTrim d.params) ":" = true) :=
  (wrapper_call_characterization [("GET /a", "hx")] demoRouter
      { name := "hx", call := HandlerCall.withRequest } (by decide)).1.mp rfl

/-- Head characterization of the component-wise path order. -/
theorem pathLe_cons (x y : String) (xs ys : List String) :
    pathLe (x :: xs) (y :: ys) = true ↔ (x < y ∨ (x = y ∧ pathLe xs ys = true)) := by
  rcases lt_trichotomy x y with h | h | h
  · simp [pathLe, h]
  · subst h
    simp [pathLe, lt_irrefl]
  · have hxy : ¬x < y := not_lt.mpr (le_of_lt h)
    have hne : x ≠ y := Ne.symm (ne_of_lt h)
    simp [pathLe, hxy, h, hne]

/-- The path order is total. -/
theorem pathLe_total (a b : List String) : pathLe a b = true ∨ pathLe b a = true := by
  induction a generalizing b with
  | nil => exact Or.inl rfl
  | cons x xs ih =>
    cases b with
    | nil => exact Or.inr rfl
    | cons y ys =>
      rcases lt_trichotomy x y with h | h | h
      · exact Or.inl ((pathLe_cons x y xs ys).mpr (Or.inl h))
      · subst h
        rcases ih ys with h2 | h2
        · exact Or.inl ((pathLe_cons x x xs ys).mpr (Or.inr ⟨rfl, h2⟩))
        · exact Or.inr ((pathLe_cons x x ys xs).mpr (Or.inr ⟨rfl, h2⟩))
      · exact Or.inr ((pathLe_cons y x ys xs).mpr (Or.inl h))

/-- The path order is transitive. -/
theorem pathLe_trans (a b c : List String) (hab : pathLe a b = true)
    (hbc : pathLe b c = true) : pathLe a c = true := by
  induction a generalizing b c with
  | nil => rfl
  | cons x xs ih =>
    cases b with
    | nil => simp [pathLe] at hab
    | cons y ys =>
      cases c with
      | nil => simp [pathLe] at hbc
      | cons z zs =>
        rcases (pathLe_cons x y xs ys).mp hab with h1 | ⟨h1e, h1r⟩
        · rcases (pathLe_cons y z ys zs).mp hbc with h2 | ⟨h2e, h2r⟩
          · exact (pathLe_cons x z xs zs).mpr (Or.inl (lt_trans h1 h2))
          · subst h2e
            exact (pathLe_cons x y xs zs).mpr (Or.inl h1)
        · subst h1e
          rcases (pathLe_cons x z ys zs).mp hbc with h2 | ⟨h2e, h2r⟩
          · exact (pathLe_cons x z xs zs).mpr (Or.inl h2)
          · subst h2e
            exact (pathLe_cons x x xs zs).mpr (Or.inr ⟨rfl, ih ys zs h1r h2r⟩)

/-- The path order is antisymmetric. -/
theorem pathLe_antisymm (a b : List String) (hab : pathLe a b = true)
    (hba : pathLe b a = true) : a = b := by
  induction a generalizing b with
  | nil =>
    cases b with
    | nil => rfl
    | cons y ys => simp [pathLe] at hba
  | cons x xs ih =>
    cases b with
    | nil => simp [pathLe] at hab
    | cons y ys =>
      rcases (pathLe_cons x y xs ys).mp hab with h1 | ⟨h1e, h1r⟩
      · rcases (pathLe_cons y x ys xs).mp hba with h2 | ⟨h2e, h2r⟩
        · exact absurd h2 (lt_asymm h1)
        · subst h2e
          exact absurd h1 (lt_irrefl _)
      · subst h1e
        rcases (pathLe_cons x x ys xs).mp hba with h2 | ⟨h2e, h2r⟩
        · exact absurd h2 (lt_irrefl _)
        · rw [ih ys h1r h2r]

/-- Two sorted file lists that are permutations of each other and have
pairwise-distinct paths are equal (uniqueness of the sorted order used by
`calculate_plugin_hash`). -/
theorem sorted_perm_nodup_paths_eq (l1 : List SrcFile) :
    ∀ l2 : List SrcFile, l1.Perm l2 →
      l1.Pairwise (fun a b => fileLe a b = true) →
      l2.Pairwise (fun a b => fileLe a b = true) →
      (l1.map SrcFile.path).Nodup → l1 = l2 := by
  induction l1 with
  | nil =>
    intro l2 hp _ _ _
    exact hp.nil_eq
  | cons x xs ih =>
    intro l2 hp hs1 hs2 hnd
    cases l2 with
    | nil => exact absurd hp.symm.nil_eq (by simp)
    | cons y ys =>
      by_cases hxy : x = y
      · subst hxy
        have hxs : xs.Perm ys := hp.cons_inv
        have h1 := List.pairwise_cons.mp hs1
        have h2 := List.pairwise_cons.mp hs2
        have hnd' : (xs.map SrcFile.path).Nodup := by
          simp only [List.map_cons, List.nodup_cons] at hnd
          exact hnd.2
        rw [ih ys hxs h1.2 h2.2 hnd']
      · exfalso
        have hxmem : x ∈ ys := by
          have hx : x ∈ y :: ys := hp.subset (List.mem_cons_self _ _)
          rcases List.mem_cons.mp hx with h | h
          · exact absurd h hxy
          · exact h
        have hymem : y ∈ xs := by
          have hy : y ∈ x :: xs := hp.symm.subset (List.mem_cons_self _ _)
          rcases List.mem_cons.mp hy with h | h
          · exact absurd h.symm hxy
          · exact h
        have hxy1 : fileLe x y = true := (List.pairwise_cons.mp hs1).1 y hymem
        have hyx : fileLe y x = true := (List.pairwise_cons.mp hs2).1 x hxmem
        have hpath : x.path = y.path := pathLe_antisymm _ _ hxy1 hyx
        simp only [List.map_cons, List.nodup_cons] at hnd
        exact hnd.1 (by rw [hpath]; exact List.mem_map_of_mem SrcFile.path hymem)

/-- C2: the digest of `calculate_plugin_hash` depends only on the set of
(relative path, content) pairs of the included files: two directories whose
included files are the same up to enumeration order (and, as on a real
filesystem, with pairwise-distinct paths) hash identically, however they
differ on excluded files. -/
theorem calculate_plugin_hash_order_invariant (d1 d2 : List SrcFile)
    (hnd : ((d1.filter isIncluded).map SrcFile.path).Nodup)
    (hperm : (d1.filter isIncluded).Perm (d2.filter isIncluded)) :
    calculate_plugin_hash d1 = calculate_plugin_hash d2 := by
  have htrans : ∀ a b c : SrcFile, fileLe a b → fileLe b c → fileLe a c := by
    intro a b c hab hbc
    exact pathLe_trans _ _ _ hab hbc
  have htotal : ∀ a b : SrcFile, fileLe a b || fileLe b a := by
    intro a b
    rcases pathLe_total a.path b.path with h | h <;> simp [fileLe, h]
  have heq : (d1.filter isIncluded).mergeSort fileLe =
      (d2.filter isIncluded).mergeSort fileLe := by
    apply sorted_perm_nodup_paths_eq
    · exact (List.mergeSort_perm _ _).trans (hperm.trans (List.mergeSort_perm _ _).symm)
    · exact List.sorted_mergeSort htrans htotal (d1.filter isIncluded)
    · exact List.sorted_mergeSort htrans htotal (d2.filter isIncluded)
    · have hmp : List.Perm (((d1.filter isIncluded).mergeSort fileLe).map SrcFile.path)
          ((d1.filter isIncluded).map SrcFile.path) := (List.mergeSort_perm _ _).map _
      exact hmp.nodup_iff.mpr hnd
  unfold calculate_plugin_hash hashStream
  rw [heq]

/-- Witness for C2: two directories listing the same two source files in
opposite orders (and lock files with different contents, which are excluded)
produce the same digest. -/
theorem calculate_plugin_hash_order_invariant_witness :
    calculate_plugin_hash [wfile1, wfile2, wlock1] =
      calculate_plugin_hash [wfile2, wfile1, wlock2] :=
  calculate_plugin_hash_order_invariant [wfile1, wfile2, wlock1] [wfile2, wfile1, wlock2]
    (by decide) (by decide)
